import Mathlib

/-!
Shallow embedding of the core logic of the cryptomonetizer repository.

The embedded code:
- the rate-processing core of the React callback in src/src/App.tsx, lines 116-119:
  the raw quotes are mapped to records carrying a computed netAmount and then
  sorted descending by netAmount with the JavaScript stable sort and the
  comparator given in the source;
- the mock rate endpoint in the server file, lines 15-27: four fixed exchanges
  with fixed fees and a randomly perturbed price, the random draw of
  Math.random appearing here as an explicit rational parameter in the
  half-open interval from 0 inclusive to 1 exclusive;
- the prompt construction of analyzeWithAI in src/src/App.tsx, lines 130-149,
  whose reading of the first ranked quote is embedded through Option.

Numbers are embedded as rationals: the arithmetic of the source on the inputs
the claims quantify over is exact in this model, so statements made by the
spec up to a floating-point tolerance appear here as exact equalities.
-/

namespace CryptoMonetizer

/-- The Token record of src/src/types.ts: symbol, name, balance string,
unit price and total value of the holding. -/
structure Token where
  symbol : String
  name : String
  balance : String
  price : ℚ
  value : ℚ
  deriving DecidableEq, Repr

/-- The ExchangeRate record of src/src/types.ts before enrichment:
exchange name, unit price and fee fraction. -/
structure ExchangeRate where
  exchange : String
  price : ℚ
  fee : ℚ
  deriving DecidableEq, Repr

/-- An ExchangeRate record after the map in fetchRates has attached the
computed netAmount field (the spread in App.tsx line 117 keeps the other
fields unchanged). -/
structure RankedQuote where
  exchange : String
  price : ℚ
  fee : ℚ
  netAmount : ℚ
  deriving DecidableEq, Repr

/-- The netAmount expression of App.tsx line 118:
(token.value * (r.price / token.price)) * (1 - r.fee). -/
def computeNetAmount (token : Token) (r : ExchangeRate) : ℚ :=
  (token.value * (r.price / token.price)) * (1 - r.fee)

/-- The body of the map in App.tsx lines 116-118: spread the raw quote and
attach the computed netAmount. -/
def annotate (token : Token) (r : ExchangeRate) : RankedQuote :=
  { exchange := r.exchange, price := r.price, fee := r.fee,
    netAmount := computeNetAmount token r }

/-- The order realised by the comparator of App.tsx line 119,
(a, b) => b.netAmount - a.netAmount: a sorts no later than b exactly when
the comparator value is nonpositive, that is when b.netAmount ≤ a.netAmount,
giving descending order by netAmount. -/
def rateGE (a b : RankedQuote) : Prop := b.netAmount ≤ a.netAmount

instance : DecidableRel rateGE := fun a b =>
  inferInstanceAs (Decidable (b.netAmount ≤ a.netAmount))

instance : IsTotal RankedQuote rateGE :=
  ⟨fun a b => le_total b.netAmount a.netAmount⟩

instance : IsTrans RankedQuote rateGE :=
  ⟨fun _ _ _ hab hbc => le_trans hbc hab⟩

/-- The pure core of fetchRates, App.tsx lines 116-119: map each raw quote to
its enriched record and sort descending by netAmount. Array.prototype.sort is
guaranteed stable, and on a list free of NaN this comparator is consistent, so
the result is characterised as the stable sort by rateGE; insertion sort with
rateGE realises exactly that. -/
def processedRates (token : Token) (data : List ExchangeRate) : List RankedQuote :=
  (data.map (annotate token)).insertionSort rateGE

/-- The validity domain of a quote as the spec states it:
unitPrice > 0 and 0 ≤ fee < 1. -/
def validQuote (r : ExchangeRate) : Prop :=
  0 < r.price ∧ 0 ≤ r.fee ∧ r.fee < 1

instance (r : ExchangeRate) : Decidable (validQuote r) :=
  inferInstanceAs (Decidable (_ ∧ _ ∧ _))

/-- The validity domain of a holding as the spec states it:
unitPrice > 0 and totalValue ≥ 0. -/
def validHolding (t : Token) : Prop :=
  0 < t.price ∧ 0 ≤ t.value

instance (t : Token) : Decidable (validHolding t) :=
  inferInstanceAs (Decidable (_ ∧ _))

/-- The base price chosen by the mock endpoint, server file line 17:
2800 for ETH, 65000 for BTC, 100 otherwise. -/
def basePrice (symbol : String) : ℚ :=
  if symbol = "ETH" then 2800 else if symbol = "BTC" then 65000 else 100

/-- The multiplicative perturbation of the mock endpoint, server file
lines 20-23: 1 + (rand * 0.01 - 0.005), where rand stands for the value of
one call of Math.random, a number with 0 ≤ rand < 1. -/
def priceFactor (rand : ℚ) : ℚ := 1 + (rand * 0.01 - 0.005)

/-- The response body of GET /api/rates, server file lines 15-27: four fixed
exchanges with fixed fees, each price the base price for the requested symbol
times its own random perturbation; r1, r2, r3, r4 stand for the four
Math.random draws. -/
def mockRates (symbol : String) (r1 r2 r3 r4 : ℚ) : List ExchangeRate :=
  [ { exchange := "Coinbase", price := basePrice symbol * priceFactor r1, fee := 0.015 },
    { exchange := "Binance", price := basePrice symbol * priceFactor r2, fee := 0.001 },
    { exchange := "Kraken", price := basePrice symbol * priceFactor r3, fee := 0.0026 },
    { exchange := "Uniswap (DEX)", price := basePrice symbol * priceFactor r4, fee := 0.003 } ]

/-- The prompt template of analyzeWithAI, App.tsx lines 133-137. In the
source, currentRates[0] on an empty array is undefined and the subsequent
read bestExchange.exchange throws, so on an empty list no prompt value
exists: this is embedded by Option, none exactly when the list has no head.
Number formatting (toFixed and percentage display) is abstracted by fmt. -/
def buildPrompt (fmt : ℚ → String) (token : Token) (currentRates : List RankedQuote) :
    Option String :=
  (currentRates.head?).map (fun bestExchange =>
    "Analyze the current crypto market for " ++ token.symbol ++
    ". The user wants to sell their " ++ token.balance ++ " " ++ token.symbol ++
    " (Value: $" ++ fmt token.value ++ "). Available rates: " ++
    String.intercalate ", " (currentRates.map (fun r =>
      r.exchange ++ ": $" ++ fmt r.price ++ " (Fee: " ++ fmt (r.fee * 100) ++ "%)")) ++
    ". Explain why " ++ bestExchange.exchange ++
    " is the best choice and mention any potential risks or market trends. Keep it concise and professional.")

/-- The effect of analyzeWithAI, App.tsx lines 130-149, on the stored
aiAnalysis text. respond stands for the generation call, returning the
optional response text; when the prompt construction throws, the catch block
only logs, setAiAnalysis is never reached and the stored text is unchanged;
otherwise the stored text becomes the response text, or the empty string when
the response carries none. -/
def analyzeWithAI (fmt : ℚ → String) (respond : String → Option String)
    (token : Token) (currentRates : List RankedQuote) (aiAnalysis : String) : String :=
  match buildPrompt fmt token currentRates with
  | none => aiAnalysis
  | some prompt => (respond prompt).getD ""

/-! Concrete inputs for witnesses and counterexamples. The first three follow
the scenario of the spec: a holding of total value 1000 at unit price 2800 and
two quotes at prices 2800 and 2805 with fees 0.01 and 0.02. -/

def witToken : Token :=
  { symbol := "ETH", name := "Ethereum", balance := "0.357", price := 2800, value := 1000 }

def witQuoteA : ExchangeRate := { exchange := "A", price := 2800, fee := 0.01 }

def witQuoteB : ExchangeRate := { exchange := "B", price := 2805, fee := 0.02 }

def cexToken : Token :=
  { symbol := "ETH", name := "Ethereum", balance := "10", price := 100, value := 1000 }

def badQuote : ExchangeRate := { exchange := "BadEx", price := 50, fee := 2 }

def badToken : Token :=
  { symbol := "BAD", name := "Bad Token", balance := "1", price := -1, value := 1000 }

def goodQuote : ExchangeRate := { exchange := "GoodEx", price := 50, fee := 0.01 }

def feeOneQuote : ExchangeRate := { exchange := "FeeOne", price := 50, fee := 1 }

/-- Evaluation of the ranking on the scenario inputs: quote A nets 990,
quote B nets 981.75, so the sorted order puts A first. -/
theorem processedRates_scenario :
    processedRates witToken [witQuoteA, witQuoteB] =
      [annotate witToken witQuoteA, annotate witToken witQuoteB] := by
  have hcond : rateGE (annotate witToken witQuoteA) (annotate witToken witQuoteB) := by
    simp only [rateGE, annotate, computeNetAmount, witToken, witQuoteA, witQuoteB]
    norm_num
  simp only [processedRates, List.map, List.insertionSort, List.orderedInsert]
  rw [if_pos hcond]

/-- C1: every quote in the result of the ranking carries a netAmount equal to
totalValue * (quote unit price / holding unit price) * (1 - fee); over the
rational embedding the equality is exact, hence within the stated relative
tolerance of 1e-9. -/
theorem C1_netAmount_formula (token : Token) (data : List ExchangeRate)
    (_hp : 0 < token.price) (rq : RankedQuote)
    (hrq : rq ∈ processedRates token data) :
    rq.netAmount = token.value * (rq.price / token.price) * (1 - rq.fee) := by
  rw [processedRates, List.mem_insertionSort] at hrq
  obtain ⟨r, _, rfl⟩ := List.mem_map.mp hrq
  rfl

/-- Witness for C1 at the scenario holding and quote A. -/
theorem C1_witness :
    (0 < witToken.price ∧
      annotate witToken witQuoteA ∈ processedRates witToken [witQuoteA, witQuoteB]) ∧
    (annotate witToken witQuoteA).netAmount =
      witToken.value * ((annotate witToken witQuoteA).price / witToken.price) *
        (1 - (annotate witToken witQuoteA).fee) :=
  ⟨⟨by norm_num [witToken],
    by rw [processedRates_scenario]; exact List.mem_cons_self _ _⟩,
    C1_netAmount_formula witToken [witQuoteA, witQuoteB] (by norm_num [witToken]) _
      (by rw [processedRates_scenario]; exact List.mem_cons_self _ _)⟩

/-- C3 counterexample: the quote with fee 2 is malformed, yet it is not
excluded: the ranked result contains it, annotated with a negative netAmount,
and no error list of any kind exists in the code. -/
theorem C3_counterexample :
    (¬ validQuote badQuote) ∧
    processedRates cexToken [badQuote] =
      [{ exchange := "BadEx", price := 50, fee := 2, netAmount := -500 }] := by
  constructor
  · intro h
    exact absurd h.2.2 (by norm_num [badQuote])
  · simp only [processedRates, List.map, List.insertionSort, List.orderedInsert,
      annotate, computeNetAmount, cexToken, badQuote, List.cons.injEq, and_true]
    norm_num

/-- C3 amended: the code performs no per-quote validation: every quote,
malformed or not, is annotated with its computed netAmount and kept, the
result being a permutation of the annotated input; no InvalidQuoteError is
ever produced, and the operation never throws. -/
theorem C3_amended_all_quotes_ranked (token : Token) (data : List ExchangeRate) :
    (processedRates token data).Perm (data.map (annotate token)) :=
  List.perm_insertionSort rateGE (data.map (annotate token))

/-- C4 counterexample: the holding with unit price -1 is invalid, yet the
ranking does not fail: it returns a normal ranked list. -/
theorem C4_counterexample :
    (¬ validHolding badToken) ∧
    processedRates badToken [goodQuote] =
      [{ exchange := "GoodEx", price := 50, fee := 0.01, netAmount := -49500 }] := by
  constructor
  · intro h
    exact absurd h.1 (by norm_num [badToken])
  · simp only [processedRates, List.map, List.insertionSort, List.orderedInsert,
      annotate, computeNetAmount, badToken, goodQuote, List.cons.injEq, and_true]
    norm_num

/-- C4 amended: the code performs no holding validation: for every holding,
valid or not, the ranking returns a list with one entry per input quote and
never fails; no InvalidHoldingError exists. -/
theorem C4_amended_never_fails (token : Token) (data : List ExchangeRate) :
    (processedRates token data).length = data.length := by
  rw [processedRates, List.length_insertionSort, List.length_map]

/-- C5: for a valid holding and a valid quote the computed net proceeds value
is non-negative. -/
theorem C5_netAmount_nonneg (token : Token) (r : ExchangeRate)
    (hH : validHolding token) (hQ : validQuote r) :
    0 ≤ computeNetAmount token r := by
  obtain ⟨hp, hv⟩ := hH
  obtain ⟨hrp, hf0, hf1⟩ := hQ
  have h1 : (0:ℚ) ≤ r.price / token.price := div_nonneg hrp.le hp.le
  have h2 : (0:ℚ) ≤ 1 - r.fee := by linarith
  exact mul_nonneg (mul_nonneg hv h1) h2

/-- Witness for C5 at the scenario holding and quote A. -/
theorem C5_witness :
    (validHolding witToken ∧ validQuote witQuoteA) ∧
      0 ≤ computeNetAmount witToken witQuoteA :=
  ⟨⟨by norm_num [validHolding, witToken], by norm_num [validQuote, witQuoteA]⟩,
    C5_netAmount_nonneg witToken witQuoteA
      (by norm_num [validHolding, witToken]) (by norm_num [validQuote, witQuoteA])⟩

/-- C6: a quote with fee exactly 1 and a positive unit price yields a
computed netAmount of 0. -/
theorem C6_fee_one_yields_zero (token : Token) (r : ExchangeRate)
    (_hp : 0 < token.price) (_hrp : 0 < r.price) (hf : r.fee = 1) :
    computeNetAmount token r = 0 := by
  simp [computeNetAmount, hf]

/-- Witness for C6 at the scenario holding and a quote with fee 1. -/
theorem C6_witness :
    (0 < witToken.price ∧ 0 < feeOneQuote.price ∧ feeOneQuote.fee = 1) ∧
      computeNetAmount witToken feeOneQuote = 0 :=
  ⟨⟨by norm_num [witToken], by norm_num [feeOneQuote], rfl⟩,
    C6_fee_one_yields_zero witToken feeOneQuote
      (by norm_num [witToken]) (by norm_num [feeOneQuote]) rfl⟩

/-- C7: ranking a valid holding against the empty quote list returns the
empty list; the function returns normally, it does not fail. -/
theorem C7_rank_empty (token : Token) (_h : validHolding token) :
    processedRates token [] = [] := rfl

/-- Witness for C7 at the scenario holding. -/
theorem C7_witness : validHolding witToken ∧ processedRates witToken [] = [] :=
  ⟨by norm_num [validHolding, witToken],
    C7_rank_empty witToken (by norm_num [validHolding, witToken])⟩

/-- C8: the ranking is deterministic: two calls with equal holding and equal
quote list return equal results. The embedding is a pure function, matching
the source, whose map builds fresh records by spread and whose sort runs on
the freshly mapped array, leaving both inputs unmodified. -/
theorem C8_deterministic (t1 t2 : Token) (d1 d2 : List ExchangeRate)
    (ht : t1 = t2) (hd : d1 = d2) :
    processedRates t1 d1 = processedRates t2 d2 := by
  rw [ht, hd]

/-- Witness for C8 at the scenario holding and quote A. -/
theorem C8_witness :
    (witToken = witToken ∧ [witQuoteA] = [witQuoteA]) ∧
      processedRates witToken [witQuoteA] = processedRates witToken [witQuoteA] :=
  ⟨⟨rfl, rfl⟩, C8_deterministic witToken witToken [witQuoteA] [witQuoteA] rfl rfl⟩

/-- Inserting a record whose netAmount differs from v does not change the
sublist of records carrying netAmount v. -/
theorem filter_orderedInsert_ne (v : ℚ) (a : RankedQuote) (l : List RankedQuote)
    (ha : a.netAmount ≠ v) :
    (l.orderedInsert rateGE a).filter (fun rq => decide (rq.netAmount = v)) =
      l.filter (fun rq => decide (rq.netAmount = v)) := by
  induction l with
  | nil => simp [List.orderedInsert, ha]
  | cons b l ih =>
    simp only [List.orderedInsert]
    by_cases h : rateGE a b
    · rw [if_pos h]
      simp [List.filter_cons, ha]
    · rw [if_neg h]
      simp only [List.filter_cons]
      rw [ih]

/-- Inserting a record carrying netAmount v into a descending-sorted list
places it before every record already carrying netAmount v. -/
theorem filter_orderedInsert_eq (v : ℚ) (a : RankedQuote) (l : List RankedQuote)
    (hl : l.Sorted rateGE) (ha : a.netAmount = v) :
    (l.orderedInsert rateGE a).filter (fun rq => decide (rq.netAmount = v)) =
      a :: l.filter (fun rq => decide (rq.netAmount = v)) := by
  induction l with
  | nil => simp [List.orderedInsert, ha]
  | cons b l ih =>
    simp only [List.orderedInsert]
    by_cases h : rateGE a b
    · rw [if_pos h]
      simp [List.filter_cons, ha]
    · rw [if_neg h]
      have hb : ¬ (b.netAmount = v) := fun hbv => h (le_of_eq (hbv.trans ha.symm))
      simp only [List.filter_cons, hb, decide_eq_true_eq, if_false]
      exact ih hl.of_cons

/-- Stability of the sort of processedRates: for every netAmount value v the
sublist of records carrying v is unchanged by sorting, so tied records keep
their original relative order. -/
theorem filter_insertionSort_stable (v : ℚ) (l : List RankedQuote) :
    (l.insertionSort rateGE).filter (fun rq => decide (rq.netAmount = v)) =
      l.filter (fun rq => decide (rq.netAmount = v)) := by
  induction l with
  | nil => rfl
  | cons a l ih =>
    simp only [List.insertionSort]
    by_cases ha : a.netAmount = v
    · rw [filter_orderedInsert_eq v a _ (List.sorted_insertionSort rateGE l) ha, ih,
        List.filter_cons_of_pos (by simp [ha])]
    · rw [filter_orderedInsert_ne v a _ ha, ih,
        List.filter_cons_of_neg (by simp [ha])]

/-- C2: with a positive-unit-price holding and valid quotes, the ranking is
sorted non-increasing by netAmount, and for every netAmount value the records
carrying it appear exactly as in the annotated input, that is, quotes tied on
netAmount keep their original relative input order (stable descending sort). -/
theorem C2_rank_sorted_stable (token : Token) (data : List ExchangeRate)
    (_hp : 0 < token.price) (_hq : ∀ r ∈ data, validQuote r) :
    (processedRates token data).Sorted rateGE ∧
    ∀ v : ℚ,
      (processedRates token data).filter (fun rq => decide (rq.netAmount = v)) =
        (data.map (annotate token)).filter (fun rq => decide (rq.netAmount = v)) :=
  ⟨List.sorted_insertionSort rateGE _, fun v => filter_insertionSort_stable v _⟩

/-- Witness for C2 at the scenario holding and both scenario quotes. -/
theorem C2_witness :
    (0 < witToken.price ∧ ∀ r ∈ [witQuoteA, witQuoteB], validQuote r) ∧
    ((processedRates witToken [witQuoteA, witQuoteB]).Sorted rateGE ∧
      ∀ v : ℚ,
        (processedRates witToken [witQuoteA, witQuoteB]).filter
            (fun rq => decide (rq.netAmount = v)) =
          (([witQuoteA, witQuoteB]).map (annotate witToken)).filter
            (fun rq => decide (rq.netAmount = v))) :=
  ⟨⟨by norm_num [witToken], by
      intro r hr
      simp only [List.mem_cons, List.not_mem_nil, or_false] at hr
      rcases hr with rfl | rfl <;> norm_num [validQuote, witQuoteA, witQuoteB]⟩,
    C2_rank_sorted_stable witToken [witQuoteA, witQuoteB] (by norm_num [witToken])
      (by
        intro r hr
        simp only [List.mem_cons, List.not_mem_nil, or_false] at hr
        rcases hr with rfl | rfl <;> norm_num [validQuote, witQuoteA, witQuoteB])⟩

/-- The base price of the mock endpoint is positive for every symbol. -/
theorem basePrice_pos (symbol : String) : 0 < basePrice symbol := by
  rw [basePrice]
  split_ifs <;> norm_num

/-- When the draw lies in the range of Math.random, the price perturbation
lies in the half-open interval from 0.995 inclusive to 1.005 exclusive. -/
theorem priceFactor_bounds (rand : ℚ) (h0 : 0 ≤ rand) (h1 : rand < 1) :
    0.995 ≤ priceFactor rand ∧ priceFactor rand < 1.005 := by
  rw [priceFactor]
  constructor <;> nlinarith [h0, h1]

/-- C9 counterexample: Math.random may return exactly 0; the draw 0 lies in
its range and gives a price factor of exactly 0.995 on every quote, which is
not in the open interval the claim states: the factor interval is closed at
its lower end. -/
theorem C9_counterexample :
    ((0:ℚ) ≤ 0 ∧ (0:ℚ) < 1) ∧
    (mockRates "ETH" 0 0 0 0).map (fun r => r.price) =
      [2800 * priceFactor 0, 2800 * priceFactor 0,
        2800 * priceFactor 0, 2800 * priceFactor 0] ∧
    priceFactor 0 = 0.995 ∧ ¬ ((0.995:ℚ) < priceFactor 0) := by
  refine ⟨⟨le_refl 0, by norm_num⟩, ?_, by rw [priceFactor]; norm_num,
    by rw [priceFactor]; norm_num⟩
  simp [mockRates, basePrice]

/-- C9 amended: for every symbol and draws in the range of Math.random, the
endpoint returns exactly the four fixed exchanges with fees 0.015, 0.001,
0.0026 and 0.003, each price being the positive base price times a factor in
the half-open interval from 0.995 inclusive to 1.005 exclusive, and every
returned quote lies in the valid quote domain of the ranker. -/
theorem C9_amended_mock_rates_valid (symbol : String) (r1 r2 r3 r4 : ℚ)
    (h1 : 0 ≤ r1 ∧ r1 < 1) (h2 : 0 ≤ r2 ∧ r2 < 1)
    (h3 : 0 ≤ r3 ∧ r3 < 1) (h4 : 0 ≤ r4 ∧ r4 < 1) :
    (mockRates symbol r1 r2 r3 r4).map (fun q => (q.exchange, q.fee)) =
      [("Coinbase", 0.015), ("Binance", 0.001),
        ("Kraken", 0.0026), ("Uniswap (DEX)", 0.003)] ∧
    (mockRates symbol r1 r2 r3 r4).map (fun q => q.price) =
      [basePrice symbol * priceFactor r1, basePrice symbol * priceFactor r2,
        basePrice symbol * priceFactor r3, basePrice symbol * priceFactor r4] ∧
    (0.995 ≤ priceFactor r1 ∧ priceFactor r1 < 1.005) ∧
    (0.995 ≤ priceFactor r2 ∧ priceFactor r2 < 1.005) ∧
    (0.995 ≤ priceFactor r3 ∧ priceFactor r3 < 1.005) ∧
    (0.995 ≤ priceFactor r4 ∧ priceFactor r4 < 1.005) ∧
    ∀ q ∈ mockRates symbol r1 r2 r3 r4, validQuote q := by
  have hb := basePrice_pos symbol
  have p1 := priceFactor_bounds r1 h1.1 h1.2
  have p2 := priceFactor_bounds r2 h2.1 h2.2
  have p3 := priceFactor_bounds r3 h3.1 h3.2
  have p4 := priceFactor_bounds r4 h4.1 h4.2
  refine ⟨rfl, rfl, p1, p2, p3, p4, ?_⟩
  intro q hq
  have hf1 : (0:ℚ) < priceFactor r1 := lt_of_lt_of_le (by norm_num) p1.1
  have hf2 : (0:ℚ) < priceFactor r2 := lt_of_lt_of_le (by norm_num) p2.1
  have hf3 : (0:ℚ) < priceFactor r3 := lt_of_lt_of_le (by norm_num) p3.1
  have hf4 : (0:ℚ) < priceFactor r4 := lt_of_lt_of_le (by norm_num) p4.1
  simp only [mockRates, List.mem_cons, List.not_mem_nil, or_false] at hq
  rcases hq with rfl | rfl | rfl | rfl <;>
    exact ⟨mul_pos hb (by assumption), by norm_num, by norm_num⟩

/-- Witness for C9 at symbol ETH with all four draws equal to one half. -/
theorem C9_witness :
    ((0:ℚ) ≤ 1/2 ∧ (1:ℚ)/2 < 1) ∧
    ((mockRates "ETH" (1/2) (1/2) (1/2) (1/2)).map (fun q => (q.exchange, q.fee)) =
      [("Coinbase", 0.015), ("Binance", 0.001),
        ("Kraken", 0.0026), ("Uniswap (DEX)", 0.003)] ∧
    (mockRates "ETH" (1/2) (1/2) (1/2) (1/2)).map (fun q => q.price) =
      [basePrice "ETH" * priceFactor (1/2), basePrice "ETH" * priceFactor (1/2),
        basePrice "ETH" * priceFactor (1/2), basePrice "ETH" * priceFactor (1/2)] ∧
    (0.995 ≤ priceFactor ((1:ℚ)/2) ∧ priceFactor ((1:ℚ)/2) < 1.005) ∧
    (0.995 ≤ priceFactor ((1:ℚ)/2) ∧ priceFactor ((1:ℚ)/2) < 1.005) ∧
    (0.995 ≤ priceFactor ((1:ℚ)/2) ∧ priceFactor ((1:ℚ)/2) < 1.005) ∧
    (0.995 ≤ priceFactor ((1:ℚ)/2) ∧ priceFactor ((1:ℚ)/2) < 1.005) ∧
    ∀ q ∈ mockRates "ETH" (1/2) (1/2) (1/2) (1/2), validQuote q) :=
  ⟨⟨by norm_num, by norm_num⟩,
    C9_amended_mock_rates_valid "ETH" (1/2) (1/2) (1/2) (1/2)
      ⟨by norm_num, by norm_num⟩ ⟨by norm_num, by norm_num⟩
      ⟨by norm_num, by norm_num⟩ ⟨by norm_num, by norm_num⟩⟩

/-- C10: on an empty ranked list no prompt value exists (reading the first
element fails), the error branch swallows the failure, and the stored
AI-analysis text is left unchanged, for every formatting function, every
generation backend, every token and every previously stored text. -/
theorem C10_empty_rates_leave_analysis (fmt : ℚ → String)
    (respond : String → Option String) (token : Token) (stored : String) :
    buildPrompt fmt token [] = none ∧
    analyzeWithAI fmt respond token [] stored = stored :=
  ⟨rfl, rfl⟩

end CryptoMonetizer
